import Mathlib

/-!
# Verification of the tokenix pricing/reconciliation engine

Shallow embedding of the `LLMCreditSDK` pricing and reconciliation engine
(`sdk.ts`), its default configuration (`config.ts`) and the dashboard client's
retry discipline (`dashboardClient.ts`).

Modelling conventions:
* JavaScript numbers are modelled as exact rationals (`ℚ`); `Number(x.toFixed(6))`
  is modelled as rounding to 6 decimal places with ties away from zero, which is
  the numeric rule the specification states for this code.
* JavaScript objects keyed by strings are modelled as association lists
  `List (String × α)`; property lookup is first-match lookup, property
  assignment replaces the first matching key or appends, and object spread
  `{...a, ...b}` is a left fold of assignments of `b`'s entries over a copy of `a`.
* Methods that `throw` are modelled with `Except String`.
-/

deriving instance DecidableEq for Except

/-- First-match lookup in an association list: the JS `obj[key]` read. -/
def lookup {κ α : Type} [DecidableEq κ] (l : List (κ × α)) (k : κ) : Option α :=
  match l with
  | [] => none
  | p :: rest => if p.1 = k then some p.2 else lookup rest k

/-- JS property assignment `obj[key] = v`: replace the first entry with that key,
or append a fresh entry when the key is absent. -/
def setKey {κ α : Type} [DecidableEq κ] (l : List (κ × α)) (k : κ) (v : α) :
    List (κ × α) :=
  match l with
  | [] => [(k, v)]
  | p :: rest => if p.1 = k then (k, v) :: rest else p :: setKey rest k v

/-- In-place update of the value stored under a key (the JS `obj[k].field = v`
write pattern: every entry carrying the key is rewritten). -/
def updateKey {κ α : Type} [DecidableEq κ] (l : List (κ × α)) (k : κ) (f : α → α) :
    List (κ × α) :=
  l.map (fun p => if p.1 = k then (p.1, f p.2) else p)

/-- JS object spread `{...a, ...b}`: assign each entry of `b` over a copy of `a`. -/
def spreadMerge {κ α : Type} [DecidableEq κ] (a b : List (κ × α)) : List (κ × α) :=
  b.foldl (fun acc p => setKey acc p.1 p.2) a

/-- Delete a key from an association list (used to phrase "as if the entry were
absent"). -/
def removeKey {κ α : Type} [DecidableEq κ] (l : List (κ × α)) (k : κ) : List (κ × α) :=
  l.filter (fun p => p.1 ≠ k)

/-- Round a rational to the nearest integer, ties away from zero. -/
def roundHalfAway (x : ℚ) : ℤ :=
  if 0 ≤ x then ⌊x + 1/2⌋ else -⌊-x + 1/2⌋

/-- `Number(x.toFixed(6))`: round to 6 decimal places, ties away from zero. -/
def toFixed6 (x : ℚ) : ℚ :=
  (roundHalfAway (x * 1000000) : ℚ) / 1000000

/-- `FeatureConfig` from `types.ts`. -/
structure FeatureConfig where
  margin : ℚ
deriving Repr, DecidableEq

/-- `ModelConfig` from `types.ts`; the optional `features` object is the
association list, with the absent object modelled as `[]`. -/
structure ModelConfig where
  prompt_cost_per_1k : ℚ
  completion_cost_per_1k : ℚ
  features : List (String × FeatureConfig) := []
deriving Repr, DecidableEq

/-- `SDKConfig` from `types.ts`. -/
structure SDKConfig where
  default_margin : ℚ
  credit_per_dollar : ℚ
  models : List (String × ModelConfig)
deriving Repr, DecidableEq

/-- An entry of `Partial<SDKConfig>.models`: at runtime a custom model entry can
specify any subset of the fields, the rest being absent (`undefined`). -/
structure PartialModelConfig where
  prompt_cost_per_1k : Option ℚ := none
  completion_cost_per_1k : Option ℚ := none
  features : Option (List (String × FeatureConfig)) := none
deriving Repr, DecidableEq

/-- `Partial<SDKConfig>`: each top-level field may be absent. -/
structure PartialSDKConfig where
  default_margin : Option ℚ := none
  credit_per_dollar : Option ℚ := none
  models : Option (List (String × PartialModelConfig)) := none
deriving Repr, DecidableEq

/-- Reading a partial model entry as a full one (fields that the custom entry
does not specify read as `undefined` in JS; they are only ever inserted as-is
for model names absent from the defaults, and no claim inspects those values,
so absent numeric fields are read as 0 and an absent feature map as empty). -/
def PartialModelConfig.toModelConfig (p : PartialModelConfig) : ModelConfig :=
  { prompt_cost_per_1k := p.prompt_cost_per_1k.getD 0
    completion_cost_per_1k := p.completion_cost_per_1k.getD 0
    features := p.features.getD [] }

/-- `EstimateCreditsInput` from `types.ts` (token counts are JS numbers). -/
structure EstimateCreditsInput where
  model : String
  feature : String
  promptTokens : ℚ
  completionTokens : ℚ
deriving Repr, DecidableEq

/-- `EstimateCreditsResult` from `types.ts`. -/
structure EstimateCreditsResult where
  estimatedCredits : ℚ
deriving Repr, DecidableEq

/-- `ReconcileInput` from `types.ts`. -/
structure ReconcileInput where
  model : String
  feature : String
  promptTokens : ℚ
  completionTokens : ℚ
  actualPromptTokens : ℚ
  actualCompletionTokens : ℚ
deriving Repr, DecidableEq

/-- `ReconcileResult` from `types.ts`. -/
structure ReconcileResult where
  estimatedCredits : ℚ
  actualTokensUsed : ℚ
  actualCost : ℚ
  estimatedVsActualCreditDelta : ℚ
  costDelta : ℚ
  marginDelta : ℚ
deriving Repr, DecidableEq

/-- `array.join(', ')` on the list of configured model names. -/
def joinComma : List String → String
  | [] => ""
  | [s] => s
  | s :: rest => s ++ ", " ++ joinComma rest

/-- The `UnknownModelError` message thrown by `LLMCreditSDK.getModelConfig`. -/
def unknownModelMessage (model : String) (names : List String) : String :=
  "Model '" ++ model ++ "' not found in configuration. Available models: " ++
    joinComma names

/-- `LLMCreditSDK.getModelConfig`: look the model up, throwing an error that
enumerates the configured models when it is absent. -/
def getModelConfig (config : SDKConfig) (model : String) : Except String ModelConfig :=
  match lookup config.models model with
  | some mc => .ok mc
  | none => .error (unknownModelMessage model (config.models.map Prod.fst))

/-- `LLMCreditSDK.getMarginForFeature`:
`modelConfig.features?.[feature]?.margin || this.config.default_margin`.
The `||` is JS truthiness: a stored margin of 0 falls back to the default. -/
def getMarginForFeature (config : SDKConfig) (modelConfig : ModelConfig)
    (feature : String) : ℚ :=
  match lookup modelConfig.features feature with
  | some featureConfig =>
      if featureConfig.margin = 0 then config.default_margin else featureConfig.margin
  | none => config.default_margin

/-- The dollar cost `(p/1000)*promptCostPer1k + (c/1000)*completionCostPer1k`
computed (for estimated and for actual token counts) by `estimateCredits` and
`reconcile`. -/
def dollarCost (mc : ModelConfig) (promptTokens completionTokens : ℚ) : ℚ :=
  (promptTokens / 1000) * mc.prompt_cost_per_1k +
    (completionTokens / 1000) * mc.completion_cost_per_1k

/-- The unrounded credit value `baseCost * margin * credit_per_dollar` computed
by `estimateCredits` before `toFixed(6)`. -/
def rawCredits (config : SDKConfig) (mc : ModelConfig) (feature : String)
    (promptTokens completionTokens : ℚ) : ℚ :=
  dollarCost mc promptTokens completionTokens *
    getMarginForFeature config mc feature * config.credit_per_dollar

/-- `LLMCreditSDK.estimateCredits`. -/
def estimateCredits (config : SDKConfig) (input : EstimateCreditsInput) :
    Except String EstimateCreditsResult := do
  let mc ← getModelConfig config input.model
  let promptCost := (input.promptTokens / 1000) * mc.prompt_cost_per_1k
  let completionCost := (input.completionTokens / 1000) * mc.completion_cost_per_1k
  let baseCost := promptCost + completionCost
  let margin := getMarginForFeature config mc input.feature
  let costWithMargin := baseCost * margin
  let estimatedCredits := costWithMargin * config.credit_per_dollar
  return { estimatedCredits := toFixed6 estimatedCredits }

/-- `LLMCreditSDK.reconcile`. In JS `marginDelta` divides by the dollar costs;
division by zero in `ℚ` yields 0 where JS yields a non-finite number — no claim
depends on that value. -/
def reconcile (config : SDKConfig) (input : ReconcileInput) :
    Except String ReconcileResult := do
  let estimated ← estimateCredits config
    { model := input.model, feature := input.feature,
      promptTokens := input.promptTokens, completionTokens := input.completionTokens }
  let mc ← getModelConfig config input.model
  let estimatedPromptCost := (input.promptTokens / 1000) * mc.prompt_cost_per_1k
  let estimatedCompletionCost := (input.completionTokens / 1000) * mc.completion_cost_per_1k
  let estimatedCost := estimatedPromptCost + estimatedCompletionCost
  let actualPromptCost := (input.actualPromptTokens / 1000) * mc.prompt_cost_per_1k
  let actualCompletionCost := (input.actualCompletionTokens / 1000) * mc.completion_cost_per_1k
  let actualCost := actualPromptCost + actualCompletionCost
  let actualTokensUsed := input.actualPromptTokens + input.actualCompletionTokens
  let margin := getMarginForFeature config mc input.feature
  let actualCostWithMargin := actualCost * margin
  let actualCredits := actualCostWithMargin * config.credit_per_dollar
  let estimatedVsActualCreditDelta := actualCredits - estimated.estimatedCredits
  let costDelta := actualCost - estimatedCost
  let marginDelta := (actualCredits / actualCost) - (estimated.estimatedCredits / estimatedCost)
  return { estimatedCredits := estimated.estimatedCredits
           actualTokensUsed := actualTokensUsed
           actualCost := toFixed6 actualCost
           estimatedVsActualCreditDelta := toFixed6 estimatedVsActualCreditDelta
           costDelta := toFixed6 costDelta
           marginDelta := toFixed6 marginDelta }

/-- `LLMCreditSDK.getAvailableFeatures`. -/
def getAvailableFeatures (config : SDKConfig) (model : String) :
    Except String (List String) := do
  let mc ← getModelConfig config model
  return mc.features.map Prod.fst

/-- `DEFAULT_CONFIG` from `config.ts`.

Modelled from the spec: the `credit_per_dollar` field of the current
`DEFAULT_CONFIG` is missing from the `config.ts` revision present in the
sources (that revision predates the dollar→credit conversion); its value 1000
is taken from the specification ("creditPerDollar = 1000") and from the unit
tests ("With 1000 credit_per_dollar: 51"). All other fields are transcribed
from `config.ts`. -/
def DEFAULT_CONFIG : SDKConfig :=
  { default_margin := 3/2
    credit_per_dollar := 1000
    models :=
      [ ("openai:gpt-4",
          { prompt_cost_per_1k := 3/100
            completion_cost_per_1k := 6/100
            features := [("chat", ⟨2⟩), ("summarize", ⟨9/5⟩),
                         ("generate_code", ⟨11/5⟩), ("translate", ⟨8/5⟩)] }),
        ("openai:gpt-4-turbo",
          { prompt_cost_per_1k := 1/100
            completion_cost_per_1k := 3/100
            features := [("chat", ⟨9/5⟩), ("summarize", ⟨8/5⟩),
                         ("generate_code", ⟨2⟩)] }),
        ("openai:gpt-3.5-turbo",
          { prompt_cost_per_1k := 1/1000
            completion_cost_per_1k := 2/1000
            features := [("chat", ⟨3/2⟩), ("summarize", ⟨7/5⟩),
                         ("generate_code", ⟨8/5⟩)] }),
        ("anthropic:claude-3-opus",
          { prompt_cost_per_1k := 15/1000
            completion_cost_per_1k := 75/1000
            features := [("chat", ⟨2⟩), ("summarize", ⟨9/5⟩),
                         ("generate_code", ⟨11/5⟩)] }),
        ("anthropic:claude-3-sonnet",
          { prompt_cost_per_1k := 3/1000
            completion_cost_per_1k := 15/1000
            features := [("chat", ⟨9/5⟩), ("summarize", ⟨8/5⟩)] }),
        ("anthropic:claude-3-haiku",
          { prompt_cost_per_1k := 25/100000
            completion_cost_per_1k := 125/100000
            features := [("chat", ⟨7/5⟩), ("summarize", ⟨13/10⟩)] }),
        ("together:llama3-8b",
          { prompt_cost_per_1k := 2/10000
            completion_cost_per_1k := 2/10000
            features := [("chat", ⟨3/2⟩), ("summarize", ⟨7/5⟩)] }),
        ("together:llama3-70b",
          { prompt_cost_per_1k := 9/10000
            completion_cost_per_1k := 9/10000
            features := [("chat", ⟨8/5⟩), ("summarize", ⟨3/2⟩),
                         ("generate_code", ⟨9/5⟩)] }),
        ("cohere:command",
          { prompt_cost_per_1k := 1/1000
            completion_cost_per_1k := 2/1000
            features := [("chat", ⟨3/2⟩), ("summarize", ⟨7/5⟩)] }) ] }

/-- `TokenUsage` from `types.ts`. -/
structure TokenUsage where
  promptTokens : ℚ
  completionTokens : ℚ
deriving Repr, DecidableEq

/-- One step of the model-merging loop in `LLMCreditSDK.mergeConfigs`: an
existing entry is merged field-by-field
(`{...result.models[name], ...custom, features: {...existing.features, ...custom.features}}`),
a new name is inserted as-is. -/
def mergeModelConfig (existing : ModelConfig) (custom : PartialModelConfig) : ModelConfig :=
  { prompt_cost_per_1k := custom.prompt_cost_per_1k.getD existing.prompt_cost_per_1k
    completion_cost_per_1k := custom.completion_cost_per_1k.getD existing.completion_cost_per_1k
    features := spreadMerge existing.features (custom.features.getD []) }

/-- The loop body of `LLMCreditSDK.mergeConfigs` over
`Object.entries(customConfig.models)`. -/
def mergeModelsStep (acc : List (String × ModelConfig)) (p : String × PartialModelConfig) :
    List (String × ModelConfig) :=
  match lookup acc p.1 with
  | some existing => setKey acc p.1 (mergeModelConfig existing p.2)
  | none => setKey acc p.1 p.2.toModelConfig

/-- `LLMCreditSDK.mergeConfigs`. -/
def mergeConfigs (defaultConfig : SDKConfig) (customConfig : PartialSDKConfig) : SDKConfig :=
  { default_margin := customConfig.default_margin.getD defaultConfig.default_margin
    credit_per_dollar := customConfig.credit_per_dollar.getD defaultConfig.credit_per_dollar
    models :=
      match customConfig.models with
      | none => defaultConfig.models
      | some customModels => customModels.foldl mergeModelsStep defaultConfig.models }

/-- The configuration with one feature entry of one model deleted; used to
state that a zero margin behaves exactly as if the feature entry were absent. -/
def removeFeatureFromModel (config : SDKConfig) (model feature : String) : SDKConfig :=
  { config with
    models := updateKey config.models model
      (fun mc => { mc with features := removeKey mc.features feature }) }

/-- The mutable slice of `LLMCreditSDK` state relevant to the claims: the
merged configuration plus the dashboard-sync flags
(`dashboardSyncEnabled`, `dashboardClient !== null`). -/
structure SDKState where
  config : SDKConfig
  dashboardSyncEnabled : Bool
  hasDashboardClient : Bool
deriving Repr, DecidableEq

/-- The `LLMCreditSDK` constructor: merge the optional custom configuration
over the defaults (`customConfig || {}`); the dashboard client starts `null`
and sync starts disabled. -/
def LLMCreditSDK.init (customConfig : Option PartialSDKConfig) : SDKState :=
  { config := mergeConfigs DEFAULT_CONFIG (customConfig.getD {})
    dashboardSyncEnabled := false
    hasDashboardClient := false }

/-- `LLMCreditSDK.isDashboardSyncEnabled`. -/
def isDashboardSyncEnabled (st : SDKState) : Bool :=
  st.dashboardSyncEnabled

/-- `LLMCreditSDK.disableDashboardSync`: drop the client and clear the flag. -/
def disableDashboardSync (st : SDKState) : SDKState :=
  { st with dashboardSyncEnabled := false, hasDashboardClient := false }

/-- Outcome of one transport attempt against the dashboard endpoint: either a
network/timeout failure or an HTTP response with a status, a status text and a
parsed body. -/
inductive FetchOutcome (α : Type) where
  | networkError (message : String)
  | response (status : Nat) (statusText : String) (body : α)
deriving Repr, DecidableEq

/-- `response.ok`: HTTP status in [200, 300). -/
def responseOk (status : Nat) : Bool :=
  200 ≤ status && status < 300

/-- One attempt of `DashboardClient.postReconciliation`/`getConfig`: a
non-2xx response throws `Dashboard API error: {status} {statusText}`, a network
failure throws its own error, a 2xx response resolves with the body. -/
def attemptRequest {α : Type} (o : FetchOutcome α) : Except String α :=
  match o with
  | .networkError message => .error message
  | .response status statusText body =>
      if responseOk status then .ok body
      else .error ("Dashboard API error: " ++ toString status ++ " " ++ statusText)

/-- Trace of `DashboardClient.retryRequest`: the final outcome, how many times
the operation (one transport call) ran, and the backoff delays (ms) slept
between consecutive attempts. -/
structure RetryTrace (α : Type) where
  result : Except String α
  attemptsMade : Nat
  delays : List ℚ
deriving Repr, DecidableEq

/-- The `for (let attempt = 0; attempt <= maxRetries; attempt++)` loop of
`DashboardClient.retryRequest`, run over the list of attempt indices; the
operation's outcome may differ per attempt. The `[]` case is the unreachable
`throw lastError!` after the loop. -/
def retryLoop {α : Type} (op : Nat → Except String α) (maxRetries : Nat) (baseDelay : ℚ) :
    List Nat → RetryTrace α
  | [] => { result := .error "", attemptsMade := 0, delays := [] }
  | attempt :: rest =>
    match op attempt with
    | .ok a => { result := .ok a, attemptsMade := 1, delays := [] }
    | .error e =>
      if attempt = maxRetries then { result := .error e, attemptsMade := 1, delays := [] }
      else
        let r := retryLoop op maxRetries baseDelay rest
        { result := r.result, attemptsMade := r.attemptsMade + 1,
          delays := baseDelay * 2 ^ attempt :: r.delays }

/-- `DashboardClient.retryRequest` with its default arguments
(`maxRetries = 3`, `baseDelay = 500`), as used by both request operations. -/
def retryRequest {α : Type} (op : Nat → Except String α) : RetryTrace α :=
  retryLoop op 3 500 (List.range (3 + 1))

/-- `DashboardClient.postReconciliation`: the POST attempt under the retry
policy (the request body plays no role in the control flow). -/
def DashboardClient.postReconciliation (outcomes : Nat → FetchOutcome Unit) : RetryTrace Unit :=
  retryRequest (fun i => attemptRequest (outcomes i))

/-- `DashboardClient.getConfig`: the config fetch under the same retry policy. -/
def DashboardClient.getConfig (outcomes : Nat → FetchOutcome SDKConfig) : RetryTrace SDKConfig :=
  retryRequest (fun i => attemptRequest (outcomes i))

/-- `LLMCreditSDK.postReconciliationToDashboard`: silently skip when sync is
disabled or no client exists; otherwise run the client post and catch any
error ("Log error but don't throw"). -/
def postReconciliationToDashboard (st : SDKState) (outcomes : Nat → FetchOutcome Unit) :
    Except String Unit :=
  if !st.dashboardSyncEnabled || !st.hasDashboardClient then .ok ()
  else
    match (DashboardClient.postReconciliation outcomes).result with
    | .ok _ => .ok ()
    | .error _ => .ok ()

/-- `WrapCallResult` from `types.ts`. -/
structure WrapCallResult (α : Type) where
  response : α
  reconciliation : ReconcileResult
deriving Repr, DecidableEq

/-- Trace of one `LLMCreditSDK.wrapCall` invocation: the value returned (or
error thrown) to the caller, whether a dashboard post was attempted, and the
outcome of the fire-and-forget posting path. -/
structure WrapCallTrace (α : Type) where
  result : Except String (WrapCallResult α)
  postedToDashboard : Bool
  dashboardOutcome : Except String Unit
deriving Repr, DecidableEq

/-- `LLMCreditSDK.wrapCall`. The caller's `callFunction` has already resolved
to `response`; `tokenExtractor` is the optional extractor capability; a
dashboard post is attempted iff sync is enabled and a client exists, and its
outcome never reaches the returned value. -/
def wrapCall {α : Type} (st : SDKState) (model feature : String)
    (promptTokens completionTokens : ℚ) (response : α)
    (tokenExtractor : Option (α → TokenUsage)) (outcomes : Nat → FetchOutcome Unit) :
    WrapCallTrace α :=
  match estimateCredits st.config
      { model := model, feature := feature,
        promptTokens := promptTokens, completionTokens := completionTokens } with
  | .error e => { result := .error e, postedToDashboard := false, dashboardOutcome := .ok () }
  | .ok _ =>
    let actualPromptTokens :=
      match tokenExtractor with
      | some extract => (extract response).promptTokens
      | none => promptTokens
    let actualCompletionTokens :=
      match tokenExtractor with
      | some extract => (extract response).completionTokens
      | none => completionTokens
    match reconcile st.config
        { model := model, feature := feature,
          promptTokens := promptTokens, completionTokens := completionTokens,
          actualPromptTokens := actualPromptTokens,
          actualCompletionTokens := actualCompletionTokens } with
    | .error e => { result := .error e, postedToDashboard := false, dashboardOutcome := .ok () }
    | .ok reconciliation =>
      { result := .ok { response := response, reconciliation := reconciliation }
        postedToDashboard := st.dashboardSyncEnabled && st.hasDashboardClient
        dashboardOutcome := postReconciliationToDashboard st outcomes }

/-- A top-level configuration object in the reference model of the JS heap:
scalar fields held by value, the `models` object held by reference. -/
structure ConfigObj where
  default_margin : ℚ
  credit_per_dollar : ℚ
  modelsRef : Nat
deriving Repr, DecidableEq

/-- A minimal JS heap for `getConfig`'s copying behavior: top-level
configuration objects and `models` map objects, addressed by numeric
references, plus the next fresh reference. -/
structure Heap where
  objs : List (Nat × ConfigObj)
  modelMaps : List (Nat × List (String × ModelConfig))
  nextRef : Nat
deriving Repr, DecidableEq

/-- `LLMCreditSDK.getConfig`, i.e. `return { ...this.config }`: allocate a
fresh top-level object whose fields copy the live object's field values —
including the reference to the shared `models` object — and return its
reference. -/
def getConfig (h : Heap) (liveRef : Nat) : Heap × Nat :=
  match lookup h.objs liveRef with
  | some obj =>
      ({ h with objs := (h.nextRef, obj) :: h.objs, nextRef := h.nextRef + 1 }, h.nextRef)
  | none => (h, h.nextRef)

/-- The caller mutation `cfg.default_margin = v` on a top-level object. -/
def writeDefaultMargin (h : Heap) (ref : Nat) (v : ℚ) : Heap :=
  { h with objs := updateKey h.objs ref (fun obj => { obj with default_margin := v }) }

/-- The caller mutation `cfg.models[model].prompt_cost_per_1k = v` through a
top-level object's `models` reference. -/
def writeModelPromptCost (h : Heap) (modelsRef : Nat) (model : String) (v : ℚ) : Heap :=
  let write := fun mc => { mc with prompt_cost_per_1k := v }
  { h with modelMaps := updateKey h.modelMaps modelsRef (fun mm => updateKey mm model write) }

/-- Dereference a top-level configuration object into the value the engine
computes with. -/
def readConfig (h : Heap) (ref : Nat) : Option SDKConfig :=
  match lookup h.objs ref with
  | some obj =>
    match lookup h.modelMaps obj.modelsRef with
    | some mm =>
        some { default_margin := obj.default_margin,
               credit_per_dollar := obj.credit_per_dollar, models := mm }
    | none => none
  | none => none

/-- C1: `estimateCredits` on the built-in defaults for `openai:gpt-4`/`chat`
with 150 prompt and 350 completion tokens returns exactly 51 credits
(`((150/1000*0.03)+(350/1000*0.06)) * 2.0 * 1000 = 51`, unchanged by the
6-decimal rounding). -/
theorem C1_default_gpt4_chat_estimate :
    estimateCredits DEFAULT_CONFIG
      { model := "openai:gpt-4", feature := "chat",
        promptTokens := 150, completionTokens := 350 } =
      .ok { estimatedCredits := 51 } := by
  simp [estimateCredits, getModelConfig, DEFAULT_CONFIG, lookup, getMarginForFeature,
    unknownModelMessage, bind, Except.bind, pure, Except.pure]
  norm_num [toFixed6, roundHalfAway]

/-! ## Association-list lemmas -/

theorem lookup_mem {κ α : Type} [DecidableEq κ] {l : List (κ × α)} {k : κ} {v : α}
    (h : lookup l k = some v) : (k, v) ∈ l := by
  induction l with
  | nil => simp [lookup] at h
  | cons p rest ih =>
    obtain ⟨p1, p2⟩ := p
    by_cases hk : p1 = k
    · simp [lookup, hk] at h
      rw [← hk, ← h]
      exact List.mem_cons_self _ _
    · simp only [lookup] at h
      rw [if_neg (by simpa using hk)] at h
      exact List.mem_cons_of_mem _ (ih h)

theorem lookup_setKey_self {κ α : Type} [DecidableEq κ] (l : List (κ × α)) (k : κ) (v : α) :
    lookup (setKey l k v) k = some v := by
  induction l with
  | nil => simp [setKey, lookup]
  | cons p rest ih =>
    by_cases hk : p.1 = k
    · simp [setKey, hk, lookup]
    · simp [setKey, hk, lookup, ih]

theorem lookup_setKey_ne {κ α : Type} [DecidableEq κ] (l : List (κ × α)) (k : κ) (v : α)
    {k' : κ} (h : k' ≠ k) : lookup (setKey l k v) k' = lookup l k' := by
  induction l with
  | nil => simp [setKey, lookup, Ne.symm h]
  | cons p rest ih =>
    by_cases hk : p.1 = k
    · simp [setKey, hk, lookup, Ne.symm h]
    · simp [setKey, hk, lookup, ih]

theorem lookup_updateKey_self {κ α : Type} [DecidableEq κ] (l : List (κ × α)) (k : κ)
    (f : α → α) : lookup (updateKey l k f) k = (lookup l k).map f := by
  induction l with
  | nil => simp [updateKey, lookup]
  | cons p rest ih =>
    by_cases hk : p.1 = k
    · simp [updateKey, lookup, hk]
    · simp only [updateKey, List.map_cons, if_neg hk, lookup]
      simpa [updateKey] using ih

theorem lookup_updateKey_ne {κ α : Type} [DecidableEq κ] (l : List (κ × α)) (k : κ)
    (f : α → α) {k' : κ} (h : k' ≠ k) : lookup (updateKey l k f) k' = lookup l k' := by
  induction l with
  | nil => simp [updateKey, lookup]
  | cons p rest ih =>
    by_cases hk : p.1 = k
    · have hne : p.1 ≠ k' := by rw [hk]; exact Ne.symm h
      simp only [updateKey, List.map_cons, if_pos hk, lookup]
      rw [if_neg (hk ▸ hne), if_neg hne]
      simpa [updateKey] using ih
    · simp only [updateKey, List.map_cons, if_neg hk, lookup]
      by_cases hp : p.1 = k'
      · simp [hp]
      · rw [if_neg hp, if_neg hp]
        simpa [updateKey] using ih

theorem lookup_removeKey_self {κ α : Type} [DecidableEq κ] (l : List (κ × α)) (k : κ) :
    lookup (removeKey l k) k = none := by
  induction l with
  | nil => simp [removeKey, lookup]
  | cons p rest ih =>
    by_cases hk : p.1 = k
    · simpa [removeKey, hk] using ih
    · simpa [removeKey, hk, lookup] using ih

theorem lookup_spreadMerge_not_mem {κ α : Type} [DecidableEq κ] (a b : List (κ × α))
    {k : κ} (h : k ∉ b.map Prod.fst) : lookup (spreadMerge a b) k = lookup a k := by
  induction b generalizing a with
  | nil => simp [spreadMerge]
  | cons p rest ih =>
    simp only [List.map_cons, List.mem_cons, not_or] at h
    have step : spreadMerge a (p :: rest) = spreadMerge (setKey a p.1 p.2) rest := rfl
    rw [step, ih _ h.2, lookup_setKey_ne _ _ _ h.1]

theorem lookup_spreadMerge_mem {κ α : Type} [DecidableEq κ] (a b : List (κ × α))
    {k : κ} {v : α} (hnd : (b.map Prod.fst).Nodup) (hm : (k, v) ∈ b) :
    lookup (spreadMerge a b) k = some v := by
  induction b generalizing a with
  | nil => simp at hm
  | cons p rest ih =>
    have step : spreadMerge a (p :: rest) = spreadMerge (setKey a p.1 p.2) rest := rfl
    simp only [List.map_cons, List.nodup_cons] at hnd
    rcases List.mem_cons.mp hm with he | hr
    · subst he
      rw [step, lookup_spreadMerge_not_mem _ _ (by simpa using hnd.1)]
      exact lookup_setKey_self a k v
    · exact step ▸ ih (setKey a p.1 p.2) hnd.2 hr

/-! ## Rounding lemmas -/

theorem roundHalfAway_bounds (y : ℚ) :
    -(1/2) ≤ y - (roundHalfAway y : ℚ) ∧ y - (roundHalfAway y : ℚ) ≤ 1/2 := by
  unfold roundHalfAway
  split
  · have h1 := Int.floor_le (y + 1/2)
    have h2 := Int.lt_floor_add_one (y + 1/2)
    constructor <;> push_cast at * <;> linarith
  · have h1 := Int.floor_le (-y + 1/2)
    have h2 := Int.lt_floor_add_one (-y + 1/2)
    constructor <;> push_cast at * <;> linarith

theorem fract_neg_half : Int.fract (-(1/2) : ℚ) = 1/2 := by
  have hf : ⌊(-(1/2) : ℚ)⌋ = -1 := by norm_num
  unfold Int.fract
  rw [hf]
  norm_num

theorem fract_pos_half : Int.fract ((1/2) : ℚ) = 1/2 := by
  have hf : ⌊((1/2) : ℚ)⌋ = 0 := by norm_num
  unfold Int.fract
  rw [hf]
  norm_num

theorem roundHalfAway_strict (y : ℚ) (h : Int.fract y ≠ 1/2) :
    -(1/2) < y - (roundHalfAway y : ℚ) ∧ y - (roundHalfAway y : ℚ) < 1/2 := by
  unfold roundHalfAway
  split
  · have h2 := Int.lt_floor_add_one (y + 1/2)
    have h1 : (⌊y + 1/2⌋ : ℚ) < y + 1/2 := by
      rcases lt_or_eq_of_le (Int.floor_le (y + 1/2)) with hlt | heq
      · exact hlt
      · exfalso
        apply h
        have hy : y = ((⌊y + 1/2⌋ : ℤ) : ℚ) + (-(1/2)) := by linarith
        rw [hy, Int.fract_int_add, fract_neg_half]
    constructor <;> push_cast at * <;> linarith
  · have h2 := Int.lt_floor_add_one (-y + 1/2)
    have h1 : (⌊-y + 1/2⌋ : ℚ) < -y + 1/2 := by
      rcases lt_or_eq_of_le (Int.floor_le (-y + 1/2)) with hlt | heq
      · exact hlt
      · exfalso
        apply h
        have hy : y = ((-⌊-y + 1/2⌋ : ℤ) : ℚ) + (1/2) := by push_cast; linarith
        rw [hy, Int.fract_int_add, fract_pos_half]
    constructor <;> push_cast at * <;> linarith

theorem roundHalfAway_eq_zero {y : ℚ} (h1 : -(1/2) < y) (h2 : y < 1/2) :
    roundHalfAway y = 0 := by
  unfold roundHalfAway
  split
  · rw [Int.floor_eq_zero_iff, Set.mem_Ico]
    constructor <;> linarith
  · have hz : ⌊-y + 1/2⌋ = 0 := by
      rw [Int.floor_eq_zero_iff, Set.mem_Ico]
      constructor <;> linarith
    rw [hz, neg_zero]

theorem roundHalfAway_ge_one {y : ℚ} (h : 1/2 ≤ y) : 1 ≤ roundHalfAway y := by
  unfold roundHalfAway
  have hy : 0 ≤ y := by linarith
  rw [if_pos hy]
  exact Int.le_floor.mpr (by push_cast; linarith)

theorem roundHalfAway_le_neg_one {y : ℚ} (h : y ≤ -(1/2)) : roundHalfAway y ≤ -1 := by
  unfold roundHalfAway
  have hy : ¬ 0 ≤ y := by intro hc; linarith
  rw [if_neg hy]
  have h1 : 1 ≤ ⌊-y + 1/2⌋ := Int.le_floor.mpr (by push_cast; linarith)
  omega

theorem toFixed6_sub_bounds (x : ℚ) :
    -(1/2000000) ≤ x - toFixed6 x ∧ x - toFixed6 x ≤ 1/2000000 := by
  have h := roundHalfAway_bounds (x * 1000000)
  unfold toFixed6
  constructor <;> linarith [h.1, h.2]

theorem toFixed6_sub_strict (x : ℚ) (h : Int.fract (x * 1000000) ≠ 1/2) :
    -(1/2000000) < x - toFixed6 x ∧ x - toFixed6 x < 1/2000000 := by
  have hb := roundHalfAway_strict (x * 1000000) h
  unfold toFixed6
  constructor <;> linarith [hb.1, hb.2]

theorem toFixed6_eq_zero {x : ℚ} (h1 : -(1/2000000) < x) (h2 : x < 1/2000000) :
    toFixed6 x = 0 := by
  unfold toFixed6
  have hz : roundHalfAway (x * 1000000) = 0 :=
    roundHalfAway_eq_zero (by linarith) (by linarith)
  simp [hz]

theorem toFixed6_pos {x : ℚ} (h : 1/2000000 ≤ x) : 0 < toFixed6 x := by
  unfold toFixed6
  have h1 : 1 ≤ roundHalfAway (x * 1000000) := roundHalfAway_ge_one (by linarith)
  have h2 : (1 : ℚ) ≤ (roundHalfAway (x * 1000000) : ℚ) := by exact_mod_cast h1
  linarith

theorem toFixed6_neg {x : ℚ} (h : x ≤ -(1/2000000)) : toFixed6 x < 0 := by
  unfold toFixed6
  have h1 : roundHalfAway (x * 1000000) ≤ -1 := roundHalfAway_le_neg_one (by linarith)
  have h2 : (roundHalfAway (x * 1000000) : ℚ) ≤ -1 := by exact_mod_cast h1
  linarith

/-! ## Merge-fold lemmas -/

theorem lookup_mergeModelsStep_ne (acc : List (String × ModelConfig))
    (p : String × PartialModelConfig) {k : String} (h : p.1 ≠ k) :
    lookup (mergeModelsStep acc p) k = lookup acc k := by
  unfold mergeModelsStep
  cases lookup acc p.1 <;> simp [lookup_setKey_ne _ _ _ (Ne.symm h)]

theorem lookup_foldl_mergeModelsStep_not_mem (l : List (String × PartialModelConfig))
    (acc : List (String × ModelConfig)) {k : String} (h : k ∉ l.map Prod.fst) :
    lookup (l.foldl mergeModelsStep acc) k = lookup acc k := by
  induction l generalizing acc with
  | nil => rfl
  | cons p rest ih =>
    simp only [List.map_cons, List.mem_cons, not_or] at h
    rw [List.foldl_cons, ih _ h.2, lookup_mergeModelsStep_ne _ _ (Ne.symm h.1)]

theorem lookup_foldl_mergeModelsStep_mem (l : List (String × PartialModelConfig))
    (acc : List (String × ModelConfig)) {k : String} {pmc : PartialModelConfig}
    {d : ModelConfig} (hnd : (l.map Prod.fst).Nodup) (hm : (k, pmc) ∈ l)
    (hacc : lookup acc k = some d) :
    lookup (l.foldl mergeModelsStep acc) k = some (mergeModelConfig d pmc) := by
  induction l generalizing acc with
  | nil => simp at hm
  | cons p rest ih =>
    simp only [List.map_cons, List.nodup_cons] at hnd
    rcases List.mem_cons.mp hm with he | hr
    · subst he
      rw [List.foldl_cons,
        lookup_foldl_mergeModelsStep_not_mem rest _ (by simpa using hnd.1)]
      unfold mergeModelsStep
      simp only [hacc]
      exact lookup_setKey_self acc k (mergeModelConfig d pmc)
    · have hne : p.1 ≠ k := by
        intro hc
        exact hnd.1 (hc ▸ (List.mem_map_of_mem Prod.fst hr))
      rw [List.foldl_cons]
      exact ih _ hnd.2 hr (by rw [lookup_mergeModelsStep_ne _ _ hne]; exact hacc)

/-! ## Error-message enumeration -/

theorem joinComma_contains (names : List String) {n : String} (h : n ∈ names) :
    ∃ s t : List Char, (joinComma names).data = s ++ n.data ++ t := by
  induction names with
  | nil => simp at h
  | cons a rest ih =>
    rcases List.mem_cons.mp h with he | hr
    · subst he
      cases rest with
      | nil => exact ⟨[], [], by simp [joinComma]⟩
      | cons b rs =>
        refine ⟨[], (", " ++ joinComma (b :: rs)).data, ?_⟩
        show (n ++ ", " ++ joinComma (b :: rs)).data =
          [] ++ n.data ++ (", " ++ joinComma (b :: rs)).data
        simp [String.data_append]
    · obtain ⟨s, t, hst⟩ := ih hr
      cases rest with
      | nil => simp at hr
      | cons b rs =>
        refine ⟨(a ++ ", ").data ++ s, t, ?_⟩
        show (a ++ ", " ++ joinComma (b :: rs)).data = (a ++ ", ").data ++ s ++ n.data ++ t
        simp [String.data_append, hst]

theorem unknownModelMessage_contains (model : String) (names : List String) {n : String}
    (h : n ∈ names) :
    ∃ s t : List Char, (unknownModelMessage model names).data = s ++ n.data ++ t := by
  obtain ⟨s, t, hst⟩ := joinComma_contains names h
  refine ⟨("Model '" ++ model ++ "' not found in configuration. Available models: ").data ++ s,
    t, ?_⟩
  unfold unknownModelMessage
  simp [String.data_append, hst]

/-! ## Pipeline characterizations -/

theorem estimateCredits_eq (config : SDKConfig) (mc : ModelConfig)
    (input : EstimateCreditsInput) (h : lookup config.models input.model = some mc) :
    estimateCredits config input =
      .ok { estimatedCredits :=
              toFixed6 (rawCredits config mc input.feature
                input.promptTokens input.completionTokens) } := by
  unfold estimateCredits getModelConfig rawCredits dollarCost
  rw [h]
  rfl

theorem reconcile_eq (config : SDKConfig) (mc : ModelConfig) (input : ReconcileInput)
    (h : lookup config.models input.model = some mc) :
    reconcile config input =
      .ok { estimatedCredits :=
              toFixed6 (rawCredits config mc input.feature
                input.promptTokens input.completionTokens)
            actualTokensUsed := input.actualPromptTokens + input.actualCompletionTokens
            actualCost :=
              toFixed6 (dollarCost mc input.actualPromptTokens input.actualCompletionTokens)
            estimatedVsActualCreditDelta :=
              toFixed6 (rawCredits config mc input.feature
                  input.actualPromptTokens input.actualCompletionTokens -
                toFixed6 (rawCredits config mc input.feature
                  input.promptTokens input.completionTokens))
            costDelta :=
              toFixed6 (dollarCost mc input.actualPromptTokens input.actualCompletionTokens -
                dollarCost mc input.promptTokens input.completionTokens)
            marginDelta :=
              toFixed6 (rawCredits config mc input.feature
                  input.actualPromptTokens input.actualCompletionTokens /
                  dollarCost mc input.actualPromptTokens input.actualCompletionTokens -
                toFixed6 (rawCredits config mc input.feature
                    input.promptTokens input.completionTokens) /
                  dollarCost mc input.promptTokens input.completionTokens) } := by
  unfold reconcile
  rw [estimateCredits_eq config mc _ h]
  unfold getModelConfig
  rw [h]
  unfold rawCredits dollarCost
  rfl

/-! ## Claim theorems -/

/-- C2: margin resolution is a truthiness check: a configured feature margin is
used only when the entry exists and the stored margin is non-zero; a margin of
exactly 0 falls back to `default_margin` exactly as if the entry were absent,
both in `estimateCredits` and in `reconcile`. -/
theorem C2_margin_truthiness (config : SDKConfig) (mc : ModelConfig)
    (model feature : String) (p c ap ac : ℚ)
    (h : lookup config.models model = some mc) :
    (∀ fc, lookup mc.features feature = some fc → fc.margin ≠ 0 →
        getMarginForFeature config mc feature = fc.margin) ∧
    (lookup mc.features feature = none →
        getMarginForFeature config mc feature = config.default_margin) ∧
    (∀ fc, lookup mc.features feature = some fc → fc.margin = 0 →
        getMarginForFeature config mc feature = config.default_margin ∧
        estimateCredits config
            { model := model, feature := feature, promptTokens := p, completionTokens := c } =
          estimateCredits (removeFeatureFromModel config model feature)
            { model := model, feature := feature, promptTokens := p, completionTokens := c } ∧
        reconcile config
            { model := model, feature := feature, promptTokens := p, completionTokens := c,
              actualPromptTokens := ap, actualCompletionTokens := ac } =
          reconcile (removeFeatureFromModel config model feature)
            { model := model, feature := feature, promptTokens := p, completionTokens := c,
              actualPromptTokens := ap, actualCompletionTokens := ac }) := by
  have hlook : lookup (removeFeatureFromModel config model feature).models model =
      some { mc with features := removeKey mc.features feature } := by
    have hm : (removeFeatureFromModel config model feature).models =
        updateKey config.models model
          (fun mcc => { mcc with features := removeKey mcc.features feature }) := rfl
    rw [hm, lookup_updateKey_self, h]
    rfl
  refine ⟨?_, ?_, ?_⟩
  · intro fc hfc hne
    unfold getMarginForFeature
    rw [hfc]
    simp [hne]
  · intro hn
    unfold getMarginForFeature
    rw [hn]
  · intro fc hfc hz
    have hmargin : getMarginForFeature config mc feature = config.default_margin := by
      unfold getMarginForFeature
      rw [hfc]
      simp [hz]
    have hraw : ∀ x y : ℚ, rawCredits config mc feature x y =
        rawCredits (removeFeatureFromModel config model feature)
          { mc with features := removeKey mc.features feature } feature x y := by
      intro x y
      unfold rawCredits dollarCost getMarginForFeature
      rw [hfc, lookup_removeKey_self]
      simp [hz]
      rfl
    refine ⟨hmargin, ?_, ?_⟩
    · rw [estimateCredits_eq config mc _ h, estimateCredits_eq _ _ _ hlook, hraw p c]
    · rw [reconcile_eq config mc _ h, reconcile_eq _ _ _ hlook]
      simp only [hraw]
      rfl

/-- C2 witness: in a configuration whose only model has feature `f` with an
explicit margin of 0, the resolved margin is the default margin. -/
theorem C2_margin_truthiness_witness :
    getMarginForFeature
      { default_margin := 3/2, credit_per_dollar := 1000,
        models := [("m", { prompt_cost_per_1k := 1, completion_cost_per_1k := 2,
                           features := [("f", { margin := 0 })] })] }
      { prompt_cost_per_1k := 1, completion_cost_per_1k := 2,
        features := [("f", { margin := 0 })] } "f" = 3/2 :=
  ((C2_margin_truthiness
      { default_margin := 3/2, credit_per_dollar := 1000,
        models := [("m", { prompt_cost_per_1k := 1, completion_cost_per_1k := 2,
                           features := [("f", { margin := 0 })] })] }
      { prompt_cost_per_1k := 1, completion_cost_per_1k := 2,
        features := [("f", { margin := 0 })] }
      "m" "f" 1 2 3 4 (by simp [lookup])).2.2
    { margin := 0 } (by simp [lookup]) rfl).1

theorem wrapCall_ok (st : SDKState) (model feature : String) (p c : ℚ) (mc : ModelConfig)
    (h : lookup st.config.models model = some mc) (α : Type) (response : α)
    (extractor : Option (α → TokenUsage)) (outcomes : Nat → FetchOutcome Unit)
    (r : ReconcileResult)
    (hrec : reconcile st.config
        { model := model, feature := feature, promptTokens := p, completionTokens := c,
          actualPromptTokens :=
            match extractor with
            | some extract => (extract response).promptTokens
            | none => p,
          actualCompletionTokens :=
            match extractor with
            | some extract => (extract response).completionTokens
            | none => c } = .ok r) :
    wrapCall st model feature p c response extractor outcomes =
      { result := .ok { response := response, reconciliation := r },
        postedToDashboard := st.dashboardSyncEnabled && st.hasDashboardClient,
        dashboardOutcome := postReconciliationToDashboard st outcomes } := by
  cases extractor with
  | none =>
    have hrec' : reconcile st.config
        { model := model, feature := feature, promptTokens := p, completionTokens := c,
          actualPromptTokens := p, actualCompletionTokens := c } = .ok r := hrec
    unfold wrapCall
    split
    · next e heq =>
      rw [estimateCredits_eq st.config mc _ h] at heq
      cases heq
    · next v heq =>
      simp only [hrec']
  | some extract =>
    have hrec' : reconcile st.config
        { model := model, feature := feature, promptTokens := p, completionTokens := c,
          actualPromptTokens := (extract response).promptTokens,
          actualCompletionTokens := (extract response).completionTokens } = .ok r := hrec
    unfold wrapCall
    split
    · next e heq =>
      rw [estimateCredits_eq st.config mc _ h] at heq
      cases heq
    · next v heq =>
      simp only [hrec']

/-- C3 (amended): for every configuration and configured model, reconciling
with actual token counts equal to the estimated ones yields
`estimatedVsActualCreditDelta = 0` provided the unrounded estimated credit
value times 10^6 does not have fractional part exactly 1/2 (in that tie case
the rounding of the estimate shifts it by exactly half a millionth and the
reported delta comes out as ±10⁻⁶); `actualTokensUsed` is the token sum, and
`wrapCall` without a token extractor returns exactly this reconciliation. -/
theorem C3_equal_actuals_zero_delta (st : SDKState) (model feature : String) (p c : ℚ)
    (mc : ModelConfig) (h : lookup st.config.models model = some mc)
    (htie : Int.fract (rawCredits st.config mc feature p c * 1000000) ≠ 1/2) :
    ∃ r : ReconcileResult,
      reconcile st.config
          { model := model, feature := feature, promptTokens := p, completionTokens := c,
            actualPromptTokens := p, actualCompletionTokens := c } = .ok r ∧
      r.estimatedVsActualCreditDelta = 0 ∧
      r.actualTokensUsed = p + c ∧
      ∀ (α : Type) (response : α) (outcomes : Nat → FetchOutcome Unit),
        (wrapCall st model feature p c response none outcomes).result =
          .ok { response := response, reconciliation := r } := by
  have hr := reconcile_eq st.config mc
    { model := model, feature := feature, promptTokens := p, completionTokens := c,
      actualPromptTokens := p, actualCompletionTokens := c } h
  refine ⟨_, hr, ?_, rfl, ?_⟩
  · have hstrict := toFixed6_sub_strict (rawCredits st.config mc feature p c) htie
    exact toFixed6_eq_zero hstrict.1 hstrict.2
  · intro α response outcomes
    rw [wrapCall_ok st model feature p c mc h α response none outcomes _ hr]

/-- C3 counterexample: with margin 1, creditPerDollar 1 and a prompt cost of
$0.0005 per 1k tokens, one estimated = actual prompt token gives raw credits of
exactly 5·10⁻⁷ — a rounding tie — and `reconcile` reports a credit delta of
−10⁻⁶, not 0, refuting the claim as universally stated. -/
theorem C3_tie_counterexample :
    ∃ r : ReconcileResult,
      reconcile
          { default_margin := 1, credit_per_dollar := 1,
            models := [("m", { prompt_cost_per_1k := 1/2000, completion_cost_per_1k := 0,
                               features := [] })] }
          { model := "m", feature := "chat", promptTokens := 1, completionTokens := 0,
            actualPromptTokens := 1, actualCompletionTokens := 0 } = .ok r ∧
      r.estimatedVsActualCreditDelta = -(1/1000000) ∧
      r.estimatedVsActualCreditDelta ≠ 0 := by
  have h : lookup
      ({ default_margin := 1, credit_per_dollar := 1,
         models := [("m", { prompt_cost_per_1k := 1/2000, completion_cost_per_1k := 0,
                            features := [] })] } : SDKConfig).models "m" =
      some { prompt_cost_per_1k := 1/2000, completion_cost_per_1k := 0, features := [] } := by
    simp [lookup]
  have hr := reconcile_eq
    { default_margin := 1, credit_per_dollar := 1,
      models := [("m", { prompt_cost_per_1k := 1/2000, completion_cost_per_1k := 0,
                         features := [] })] }
    { prompt_cost_per_1k := 1/2000, completion_cost_per_1k := 0, features := [] }
    { model := "m", feature := "chat", promptTokens := 1, completionTokens := 0,
      actualPromptTokens := 1, actualCompletionTokens := 0 } h
  refine ⟨_, hr, ?_, ?_⟩
  · show toFixed6 (rawCredits _ _ _ 1 0 - toFixed6 (rawCredits _ _ _ 1 0)) = -(1/1000000)
    norm_num [rawCredits, dollarCost, getMarginForFeature, lookup, toFixed6, roundHalfAway]
  · show toFixed6 (rawCredits _ _ _ 1 0 - toFixed6 (rawCredits _ _ _ 1 0)) ≠ 0
    norm_num [rawCredits, dollarCost, getMarginForFeature, lookup, toFixed6, roundHalfAway]

/-- C3 witness: the no-tie theorem applied to the built-in defaults for
`openai:gpt-4`/`chat` with 100 prompt and 200 completion tokens (raw credits
exactly 30): the delta is 0 and `actualTokensUsed = 300`. -/
theorem C3_equal_actuals_zero_delta_witness :
    ∃ r : ReconcileResult,
      reconcile DEFAULT_CONFIG
          { model := "openai:gpt-4", feature := "chat", promptTokens := 100,
            completionTokens := 200, actualPromptTokens := 100,
            actualCompletionTokens := 200 } = .ok r ∧
      r.estimatedVsActualCreditDelta = 0 ∧
      r.actualTokensUsed = 300 ∧
      ∀ (α : Type) (response : α) (outcomes : Nat → FetchOutcome Unit),
        (wrapCall { config := DEFAULT_CONFIG, dashboardSyncEnabled := false,
                    hasDashboardClient := false }
            "openai:gpt-4" "chat" 100 200 response none outcomes).result =
          .ok { response := response, reconciliation := r } := by
  have := C3_equal_actuals_zero_delta
    { config := DEFAULT_CONFIG, dashboardSyncEnabled := false, hasDashboardClient := false }
    "openai:gpt-4" "chat" 100 200
    { prompt_cost_per_1k := 3/100, completion_cost_per_1k := 6/100,
      features := [("chat", ⟨2⟩), ("summarize", ⟨9/5⟩),
                   ("generate_code", ⟨11/5⟩), ("translate", ⟨8/5⟩)] }
    (by simp [DEFAULT_CONFIG, lookup])
    (by norm_num [rawCredits, dollarCost, getMarginForFeature, lookup, DEFAULT_CONFIG,
          Int.fract])
  have h300 : (100 : ℚ) + 200 = 300 := by norm_num
  rw [h300] at this
  exact this

theorem wrapCall_error (st : SDKState) (model feature : String) (p c : ℚ) (α : Type)
    (response : α) (extractor : Option (α → TokenUsage)) (outcomes : Nat → FetchOutcome Unit)
    (e : String)
    (hest : estimateCredits st.config
        { model := model, feature := feature, promptTokens := p, completionTokens := c } =
      .error e) :
    wrapCall st model feature p c response extractor outcomes =
      { result := .error e, postedToDashboard := false, dashboardOutcome := .ok () } := by
  unfold wrapCall
  split
  · next e2 heq =>
    rw [hest] at heq
    cases heq
    rfl
  · next v heq =>
    rw [hest] at heq
    cases heq

/-- C4: every lookup of a model identifier absent from the configuration fails,
in `estimateCredits`, `reconcile`, `getAvailableFeatures` and `wrapCall` alike,
with the `UnknownModelError` message, whose text contains every currently
configured model identifier; a configured identifier never raises it. -/
theorem C4_unknown_model_error (st : SDKState) (model feature : String) (p c ap ac : ℚ)
    (α : Type) (response : α) (extractor : Option (α → TokenUsage))
    (outcomes : Nat → FetchOutcome Unit) :
    (lookup st.config.models model = none →
       estimateCredits st.config
           { model := model, feature := feature, promptTokens := p, completionTokens := c } =
         .error (unknownModelMessage model (st.config.models.map Prod.fst)) ∧
       reconcile st.config
           { model := model, feature := feature, promptTokens := p, completionTokens := c,
             actualPromptTokens := ap, actualCompletionTokens := ac } =
         .error (unknownModelMessage model (st.config.models.map Prod.fst)) ∧
       getAvailableFeatures st.config model =
         .error (unknownModelMessage model (st.config.models.map Prod.fst)) ∧
       (wrapCall st model feature p c response extractor outcomes).result =
         .error (unknownModelMessage model (st.config.models.map Prod.fst))) ∧
    (∀ name, name ∈ st.config.models.map Prod.fst → ∃ s t : List Char,
       (unknownModelMessage model (st.config.models.map Prod.fst)).data =
         s ++ name.data ++ t) ∧
    (∀ mc, lookup st.config.models model = some mc →
       (∃ r, estimateCredits st.config
           { model := model, feature := feature, promptTokens := p, completionTokens := c } =
         .ok r) ∧
       (∃ r, reconcile st.config
           { model := model, feature := feature, promptTokens := p, completionTokens := c,
             actualPromptTokens := ap, actualCompletionTokens := ac } = .ok r) ∧
       (∃ fs, getAvailableFeatures st.config model = .ok fs) ∧
       (∃ r, (wrapCall st model feature p c response extractor outcomes).result = .ok r)) := by
  refine ⟨?_, ?_, ?_⟩
  · intro hnone
    have he : estimateCredits st.config
        { model := model, feature := feature, promptTokens := p, completionTokens := c } =
        .error (unknownModelMessage model (st.config.models.map Prod.fst)) := by
      unfold estimateCredits getModelConfig
      rw [hnone]
      rfl
    refine ⟨he, ?_, ?_, ?_⟩
    · unfold reconcile
      rw [he]
      rfl
    · unfold getAvailableFeatures getModelConfig
      rw [hnone]
      rfl
    · rw [wrapCall_error st model feature p c α response extractor outcomes _ he]
  · intro name hname
    exact unknownModelMessage_contains model _ hname
  · intro mc hmc
    have hrec := reconcile_eq st.config mc
      { model := model, feature := feature, promptTokens := p, completionTokens := c,
        actualPromptTokens :=
          match extractor with
          | some extract => (extract response).promptTokens
          | none => p,
        actualCompletionTokens :=
          match extractor with
          | some extract => (extract response).completionTokens
          | none => c } hmc
    have hw := wrapCall_ok st model feature p c mc hmc α response extractor outcomes _ hrec
    have hgf : getAvailableFeatures st.config model = .ok (mc.features.map Prod.fst) := by
      unfold getAvailableFeatures getModelConfig
      rw [hmc]
      rfl
    exact ⟨⟨_, estimateCredits_eq st.config mc _ hmc⟩,
      ⟨_, reconcile_eq st.config mc _ hmc⟩, ⟨_, hgf⟩, ⟨_, by rw [hw]⟩⟩

/-- C4 witness: on the built-in defaults, the unconfigured identifier
`unknown:model` makes `estimateCredits` fail with the enumerating message, and
that message contains the configured identifier `openai:gpt-4`. -/
theorem C4_unknown_model_error_witness :
    estimateCredits DEFAULT_CONFIG
        { model := "unknown:model", feature := "chat", promptTokens := 100,
          completionTokens := 200 } =
      .error (unknownModelMessage "unknown:model" (DEFAULT_CONFIG.models.map Prod.fst)) ∧
    (∃ s t : List Char,
      (unknownModelMessage "unknown:model" (DEFAULT_CONFIG.models.map Prod.fst)).data =
        s ++ ("openai:gpt-4").data ++ t) := by
  have hc := C4_unknown_model_error
    { config := DEFAULT_CONFIG, dashboardSyncEnabled := false, hasDashboardClient := false }
    "unknown:model" "chat" 100 200 100 200 Unit () none (fun _ => .networkError "down")
  exact ⟨(hc.1 (by simp [DEFAULT_CONFIG, lookup])).1,
    hc.2.1 "openai:gpt-4" (by simp [DEFAULT_CONFIG])⟩

/-- C5: the construction-time merge law. For a custom entry whose model name
exists in the defaults, the merged entry keeps the custom scalar costs where
specified and the default's otherwise, retains every default feature key not
mentioned by the custom entry, and lets custom feature entries override or
extend; model names not mentioned by the custom configuration are unaffected,
and merging the empty custom configuration returns the defaults unchanged. -/
theorem C5_merge_laws (defaultConfig : SDKConfig) (custom : PartialSDKConfig)
    (customModels : List (String × PartialModelConfig))
    (hcm : custom.models = some customModels)
    (hnd : (customModels.map Prod.fst).Nodup) :
    (∀ name pmc d, (name, pmc) ∈ customModels →
       lookup defaultConfig.models name = some d →
       lookup (mergeConfigs defaultConfig custom).models name =
         some (mergeModelConfig d pmc) ∧
       (mergeModelConfig d pmc).prompt_cost_per_1k =
         pmc.prompt_cost_per_1k.getD d.prompt_cost_per_1k ∧
       (mergeModelConfig d pmc).completion_cost_per_1k =
         pmc.completion_cost_per_1k.getD d.completion_cost_per_1k ∧
       (∀ fk, fk ∉ (pmc.features.getD []).map Prod.fst →
          lookup (mergeModelConfig d pmc).features fk = lookup d.features fk) ∧
       (((pmc.features.getD []).map Prod.fst).Nodup →
          ∀ fk fv, (fk, fv) ∈ pmc.features.getD [] →
            lookup (mergeModelConfig d pmc).features fk = some fv)) ∧
    (∀ name, name ∉ customModels.map Prod.fst →
       lookup (mergeConfigs defaultConfig custom).models name =
         lookup defaultConfig.models name) ∧
    mergeConfigs defaultConfig {} = defaultConfig := by
  have hmodels : (mergeConfigs defaultConfig custom).models =
      customModels.foldl mergeModelsStep defaultConfig.models := by
    unfold mergeConfigs
    rw [hcm]
  refine ⟨?_, ?_, ?_⟩
  · intro name pmc d hmem hd
    refine ⟨?_, rfl, rfl, ?_, ?_⟩
    · rw [hmodels]
      exact lookup_foldl_mergeModelsStep_mem _ _ hnd hmem hd
    · intro fk hfk
      exact lookup_spreadMerge_not_mem _ _ hfk
    · intro hndf fk fv hfv
      exact lookup_spreadMerge_mem _ _ hndf hfv
  · intro name hname
    rw [hmodels]
    exact lookup_foldl_mergeModelsStep_not_mem _ _ hname
  · rfl

/-- C5 witness: merging, over the built-in defaults, a custom entry for
`openai:gpt-4` that sets `prompt_cost_per_1k := 0.05` and feature `chat` margin
3 keeps the default completion cost 0.06 and the untouched default feature
`summarize` (margin 1.8), applies the overrides, leaves `cohere:command`
untouched, and merging the empty custom configuration is the identity. -/
theorem C5_merge_laws_witness :
    (∃ merged, lookup
        (mergeConfigs DEFAULT_CONFIG
          { models := some [("openai:gpt-4",
              { prompt_cost_per_1k := some (5/100),
                features := some [("chat", { margin := 3 })] })] }).models
        "openai:gpt-4" = some merged ∧
      merged.prompt_cost_per_1k = 5/100 ∧
      merged.completion_cost_per_1k = 6/100 ∧
      lookup merged.features "summarize" = some { margin := 9/5 } ∧
      lookup merged.features "chat" = some { margin := 3 }) ∧
    lookup
        (mergeConfigs DEFAULT_CONFIG
          { models := some [("openai:gpt-4",
              { prompt_cost_per_1k := some (5/100),
                features := some [("chat", { margin := 3 })] })] }).models
        "cohere:command" = lookup DEFAULT_CONFIG.models "cohere:command" ∧
    mergeConfigs DEFAULT_CONFIG {} = DEFAULT_CONFIG := by
  have hc := C5_merge_laws DEFAULT_CONFIG
    { models := some [("openai:gpt-4",
        { prompt_cost_per_1k := some (5/100),
          features := some [("chat", { margin := 3 })] })] }
    [("openai:gpt-4",
        { prompt_cost_per_1k := some (5/100),
          features := some [("chat", { margin := 3 })] })]
    rfl (by simp)
  have h1 := hc.1 "openai:gpt-4"
    { prompt_cost_per_1k := some (5/100), features := some [("chat", { margin := 3 })] }
    { prompt_cost_per_1k := 3/100, completion_cost_per_1k := 6/100,
      features := [("chat", ⟨2⟩), ("summarize", ⟨9/5⟩),
                   ("generate_code", ⟨11/5⟩), ("translate", ⟨8/5⟩)] }
    (by simp) (by simp [DEFAULT_CONFIG, lookup])
  refine ⟨⟨_, h1.1, ?_, ?_, ?_, ?_⟩, ?_, hc.2.2⟩
  · rw [h1.2.1]
    rfl
  · rw [h1.2.2.1]
    rfl
  · rw [h1.2.2.2.1 "summarize" (by simp)]
    simp [lookup]
  · exact h1.2.2.2.2 (by simp) "chat" { margin := 3 } (by simp)
  · exact hc.2.1 "cohere:command" (by simp)

theorem retryRequest_all_fail {α : Type} (op : Nat → Except String α)
    (h : ∀ i, i < 4 → ∀ a, op i ≠ .ok a) :
    retryRequest op =
      { result := op 3, attemptsMade := 4, delays := [500, 1000, 2000] } := by
  obtain ⟨e0, he0⟩ : ∃ e, op 0 = .error e := by
    cases hop : op 0 with
    | ok a => exact absurd hop (h 0 (by norm_num) a)
    | error e => exact ⟨e, rfl⟩
  obtain ⟨e1, he1⟩ : ∃ e, op 1 = .error e := by
    cases hop : op 1 with
    | ok a => exact absurd hop (h 1 (by norm_num) a)
    | error e => exact ⟨e, rfl⟩
  obtain ⟨e2, he2⟩ : ∃ e, op 2 = .error e := by
    cases hop : op 2 with
    | ok a => exact absurd hop (h 2 (by norm_num) a)
    | error e => exact ⟨e, rfl⟩
  obtain ⟨e3, he3⟩ : ∃ e, op 3 = .error e := by
    cases hop : op 3 with
    | ok a => exact absurd hop (h 3 (by norm_num) a)
    | error e => exact ⟨e, rfl⟩
  have hrange : List.range (3 + 1) = [0, 1, 2, 3] := rfl
  unfold retryRequest
  rw [hrange, he3]
  norm_num [retryLoop, he0, he1, he2, he3]

theorem retryRequest_succeeds {α : Type} (op : Nat → Except String α) (k : Nat) (a : α)
    (hk : k < 4) (hfail : ∀ i, i < k → ∀ b, op i ≠ .ok b) (hok : op k = .ok a) :
    retryRequest op =
      { result := .ok a, attemptsMade := k + 1,
        delays := (List.range k).map (fun i => (500 : ℚ) * 2 ^ i) } := by
  have hrange : List.range (3 + 1) = [0, 1, 2, 3] := rfl
  unfold retryRequest
  rw [hrange]
  interval_cases k
  · norm_num [retryLoop, hok]
  · obtain ⟨e0, he0⟩ : ∃ e, op 0 = .error e := by
      cases hop : op 0 with
      | ok b => exact absurd hop (hfail 0 (by norm_num) b)
      | error e => exact ⟨e, rfl⟩
    norm_num [retryLoop, he0, hok, List.range_succ]
  · obtain ⟨e0, he0⟩ : ∃ e, op 0 = .error e := by
      cases hop : op 0 with
      | ok b => exact absurd hop (hfail 0 (by norm_num) b)
      | error e => exact ⟨e, rfl⟩
    obtain ⟨e1, he1⟩ : ∃ e, op 1 = .error e := by
      cases hop : op 1 with
      | ok b => exact absurd hop (hfail 1 (by norm_num) b)
      | error e => exact ⟨e, rfl⟩
    norm_num [retryLoop, he0, he1, hok, List.range_succ]
  · obtain ⟨e0, he0⟩ : ∃ e, op 0 = .error e := by
      cases hop : op 0 with
      | ok b => exact absurd hop (hfail 0 (by norm_num) b)
      | error e => exact ⟨e, rfl⟩
    obtain ⟨e1, he1⟩ : ∃ e, op 1 = .error e := by
      cases hop : op 1 with
      | ok b => exact absurd hop (hfail 1 (by norm_num) b)
      | error e => exact ⟨e, rfl⟩
    obtain ⟨e2, he2⟩ : ∃ e, op 2 = .error e := by
      cases hop : op 2 with
      | ok b => exact absurd hop (hfail 2 (by norm_num) b)
      | error e => exact ⟨e, rfl⟩
    norm_num [retryLoop, he0, he1, he2, hok, List.range_succ]

/-- C6: both dashboard request operations run under the same retry policy:
when every attempt fails, exactly 4 transport attempts are made with backoff
delays of 500, 1000 and 2000 ms between consecutive attempts and the operation
fails with the last attempt's error (for an HTTP failure, the message names
the last status); when an attempt succeeds, no further attempts are made and
its result is returned. -/
theorem C6_retry_policy (post : Nat → FetchOutcome Unit)
    (fetch : Nat → FetchOutcome SDKConfig) (s : Nat) (stext : String) :
    ((∀ i, i < 4 → ∀ u, attemptRequest (post i) ≠ .ok u) →
       DashboardClient.postReconciliation post =
         { result := attemptRequest (post 3), attemptsMade := 4,
           delays := [500, 1000, 2000] }) ∧
    (∀ k u, k < 4 → (∀ i, i < k → ∀ w, attemptRequest (post i) ≠ .ok w) →
       attemptRequest (post k) = .ok u →
       DashboardClient.postReconciliation post =
         { result := .ok u, attemptsMade := k + 1,
           delays := (List.range k).map (fun i => (500 : ℚ) * 2 ^ i) }) ∧
    ((∀ i, i < 4 → ∀ cfg, attemptRequest (fetch i) ≠ .ok cfg) →
       DashboardClient.getConfig fetch =
         { result := attemptRequest (fetch 3), attemptsMade := 4,
           delays := [500, 1000, 2000] }) ∧
    (∀ k cfg, k < 4 → (∀ i, i < k → ∀ w, attemptRequest (fetch i) ≠ .ok w) →
       attemptRequest (fetch k) = .ok cfg →
       DashboardClient.getConfig fetch =
         { result := .ok cfg, attemptsMade := k + 1,
           delays := (List.range k).map (fun i => (500 : ℚ) * 2 ^ i) }) ∧
    (responseOk s = false →
       attemptRequest (FetchOutcome.response s stext ()) =
         .error ("Dashboard API error: " ++ toString s ++ " " ++ stext)) := by
  refine ⟨?_, ?_, ?_, ?_, ?_⟩
  · intro hf
    exact retryRequest_all_fail _ hf
  · intro k u hk hf hok
    exact retryRequest_succeeds _ k u hk hf hok
  · intro hf
    exact retryRequest_all_fail _ hf
  · intro k cfg hk hf hok
    exact retryRequest_succeeds _ k cfg hk hf hok
  · intro hbad
    simp [attemptRequest, hbad]

/-- C6 witness: posting against an endpoint that always answers HTTP 500 makes
exactly 4 transport attempts with delays 500/1000/2000 ms and fails with the
message naming the last status. -/
theorem C6_retry_policy_witness :
    DashboardClient.postReconciliation
        (fun _ => .response 500 "Internal Server Error" ()) =
      { result := .error "Dashboard API error: 500 Internal Server Error",
        attemptsMade := 4, delays := [500, 1000, 2000] } := by
  have hc := (C6_retry_policy (fun _ => .response 500 "Internal Server Error" ())
    (fun _ => .networkError "down") 500 "Internal Server Error").1
  rw [hc (by intro i hi u; simp [attemptRequest, responseOk])]
  rfl

/-- C7: the fire-and-forget posting path never propagates: `postReconciliationToDashboard`
resolves successfully for every transport behavior (failures are caught and
only logged), and the `{response, reconciliation}` value `wrapCall` returns is
the one it returns with dashboard sync disabled, whatever the dashboard
transport does. -/
theorem C7_dashboard_errors_confined (st : SDKState) (model feature : String) (p c : ℚ)
    (α : Type) (response : α) (extractor : Option (α → TokenUsage))
    (outcomes outcomes' : Nat → FetchOutcome Unit) :
    postReconciliationToDashboard st outcomes = .ok () ∧
    (wrapCall st model feature p c response extractor outcomes).dashboardOutcome = .ok () ∧
    (wrapCall st model feature p c response extractor outcomes).result =
      (wrapCall { config := st.config, dashboardSyncEnabled := false,
                  hasDashboardClient := false } model feature p c response extractor
        outcomes').result := by
  have hpost : ∀ (s : SDKState) (o : Nat → FetchOutcome Unit),
      postReconciliationToDashboard s o = .ok () := by
    intro s o
    unfold postReconciliationToDashboard
    split
    · rfl
    · split <;> rfl
  refine ⟨hpost st outcomes, ?_, ?_⟩
  · cases extractor with
    | none =>
      unfold wrapCall
      cases hest : estimateCredits st.config
          { model := model, feature := feature, promptTokens := p,
            completionTokens := c } with
      | error e => simp only [hest]
      | ok v =>
        cases hrec : reconcile st.config
            { model := model, feature := feature, promptTokens := p, completionTokens := c,
              actualPromptTokens := p, actualCompletionTokens := c } with
        | error e2 => simp only [hest, hrec]
        | ok r =>
          simp only [hest, hrec]
          exact hpost st outcomes
    | some extract =>
      unfold wrapCall
      cases hest : estimateCredits st.config
          { model := model, feature := feature, promptTokens := p,
            completionTokens := c } with
      | error e => simp only [hest]
      | ok v =>
        cases hrec : reconcile st.config
            { model := model, feature := feature, promptTokens := p, completionTokens := c,
              actualPromptTokens := (extract response).promptTokens,
              actualCompletionTokens := (extract response).completionTokens } with
        | error e2 => simp only [hest, hrec]
        | ok r =>
          simp only [hest, hrec]
          exact hpost st outcomes
  · cases extractor with
    | none =>
      unfold wrapCall
      cases hest : estimateCredits st.config
          { model := model, feature := feature, promptTokens := p,
            completionTokens := c } with
      | error e => simp only [hest]
      | ok v =>
        cases hrec : reconcile st.config
            { model := model, feature := feature, promptTokens := p, completionTokens := c,
              actualPromptTokens := p, actualCompletionTokens := c } with
        | error e2 => simp only [hest, hrec]
        | ok r => simp only [hest, hrec]
    | some extract =>
      unfold wrapCall
      cases hest : estimateCredits st.config
          { model := model, feature := feature, promptTokens := p,
            completionTokens := c } with
      | error e => simp only [hest]
      | ok v =>
        cases hrec : reconcile st.config
            { model := model, feature := feature, promptTokens := p, completionTokens := c,
              actualPromptTokens := (extract response).promptTokens,
              actualCompletionTokens := (extract response).completionTokens } with
        | error e2 => simp only [hest, hrec]
        | ok r => simp only [hest, hrec]

/-- C8 (amended): with nonnegative per-1k costs, margin and conversion rate,
higher actual token counts give raw actual credits at least the raw estimate;
and the reported `estimatedVsActualCreditDelta` (computed against the already
rounded estimate, then rounded itself) is strictly positive whenever the raw
credit difference is at least 10⁻⁶, strictly negative whenever it is at most
−10⁻⁶. Higher token counts alone do not suffice: zero or tiny margins, rates
or costs can leave the raw difference below the rounding threshold. -/
theorem C8_delta_sign_thresholds (config : SDKConfig) (mc : ModelConfig)
    (model feature : String) (p c ap ac : ℚ)
    (h : lookup config.models model = some mc) :
    (mc.prompt_cost_per_1k ≥ 0 → mc.completion_cost_per_1k ≥ 0 →
       getMarginForFeature config mc feature ≥ 0 → config.credit_per_dollar ≥ 0 →
       p ≤ ap → c ≤ ac →
       rawCredits config mc feature p c ≤ rawCredits config mc feature ap ac) ∧
    (rawCredits config mc feature ap ac - rawCredits config mc feature p c ≥ 1/1000000 →
       ∃ r, reconcile config
           { model := model, feature := feature, promptTokens := p, completionTokens := c,
             actualPromptTokens := ap, actualCompletionTokens := ac } = .ok r ∧
         0 < r.estimatedVsActualCreditDelta) ∧
    (rawCredits config mc feature ap ac - rawCredits config mc feature p c ≤ -(1/1000000) →
       ∃ r, reconcile config
           { model := model, feature := feature, promptTokens := p, completionTokens := c,
             actualPromptTokens := ap, actualCompletionTokens := ac } = .ok r ∧
         r.estimatedVsActualCreditDelta < 0) := by
  have hr := reconcile_eq config mc
    { model := model, feature := feature, promptTokens := p, completionTokens := c,
      actualPromptTokens := ap, actualCompletionTokens := ac } h
  refine ⟨?_, ?_, ?_⟩
  · intro h1 h2 h3 h4 h5 h6
    have ha : p / 1000 * mc.prompt_cost_per_1k ≤ ap / 1000 * mc.prompt_cost_per_1k :=
      mul_le_mul_of_nonneg_right (by linarith) h1
    have hb : c / 1000 * mc.completion_cost_per_1k ≤ ac / 1000 * mc.completion_cost_per_1k :=
      mul_le_mul_of_nonneg_right (by linarith) h2
    have hdc : dollarCost mc p c ≤ dollarCost mc ap ac := by
      unfold dollarCost
      linarith
    unfold rawCredits
    exact mul_le_mul_of_nonneg_right (mul_le_mul_of_nonneg_right hdc h3) h4
  · intro hge
    refine ⟨_, hr, ?_⟩
    show 0 < toFixed6 (rawCredits config mc feature ap ac -
      toFixed6 (rawCredits config mc feature p c))
    have hb := toFixed6_sub_bounds (rawCredits config mc feature p c)
    exact toFixed6_pos (by linarith [hb.1, hb.2])
  · intro hle
    refine ⟨_, hr, ?_⟩
    show toFixed6 (rawCredits config mc feature ap ac -
      toFixed6 (rawCredits config mc feature p c)) < 0
    have hb := toFixed6_sub_bounds (rawCredits config mc feature p c)
    exact toFixed6_neg (by linarith [hb.1, hb.2])

/-- C8 counterexample: an all-positive configuration (margin 1, rate 1, prompt
cost $0.0001 per 1k tokens) with actual prompt tokens strictly above the
estimate (1 vs 0) yields a raw credit difference of 10⁻⁷, which rounds to a
reported delta of exactly 0 — not `> 0` as the claim states. -/
theorem C8_small_raw_counterexample :
    ∃ r, reconcile
        { default_margin := 1, credit_per_dollar := 1,
          models := [("m", { prompt_cost_per_1k := 1/10000, completion_cost_per_1k := 0,
                             features := [] })] }
        { model := "m", feature := "chat", promptTokens := 0, completionTokens := 0,
          actualPromptTokens := 1, actualCompletionTokens := 0 } = .ok r ∧
      r.estimatedVsActualCreditDelta = 0 ∧
      ¬ 0 < r.estimatedVsActualCreditDelta := by
  have h : lookup
      ({ default_margin := 1, credit_per_dollar := 1,
         models := [("m", { prompt_cost_per_1k := 1/10000, completion_cost_per_1k := 0,
                            features := [] })] } : SDKConfig).models "m" =
      some { prompt_cost_per_1k := 1/10000, completion_cost_per_1k := 0, features := [] } := by
    simp [lookup]
  have hr := reconcile_eq
    { default_margin := 1, credit_per_dollar := 1,
      models := [("m", { prompt_cost_per_1k := 1/10000, completion_cost_per_1k := 0,
                         features := [] })] }
    { prompt_cost_per_1k := 1/10000, completion_cost_per_1k := 0, features := [] }
    { model := "m", feature := "chat", promptTokens := 0, completionTokens := 0,
      actualPromptTokens := 1, actualCompletionTokens := 0 } h
  refine ⟨_, hr, ?_, ?_⟩
  · show toFixed6 (rawCredits _ _ _ 1 0 - toFixed6 (rawCredits _ _ _ 0 0)) = 0
    norm_num [rawCredits, dollarCost, getMarginForFeature, lookup, toFixed6, roundHalfAway]
  · show ¬ 0 < toFixed6 (rawCredits _ _ _ 1 0 - toFixed6 (rawCredits _ _ _ 0 0))
    norm_num [rawCredits, dollarCost, getMarginForFeature, lookup, toFixed6, roundHalfAway]

/-- C8 witness: on the built-in defaults for `openai:gpt-4`/`chat`, raising
both token counts (100→120 prompt, 200→250 completion; raw credits 30 vs 37.2)
gives a strictly positive reported delta. -/
theorem C8_delta_sign_thresholds_witness :
    ∃ r, reconcile DEFAULT_CONFIG
        { model := "openai:gpt-4", feature := "chat", promptTokens := 100,
          completionTokens := 200, actualPromptTokens := 120,
          actualCompletionTokens := 250 } = .ok r ∧
      0 < r.estimatedVsActualCreditDelta :=
  (C8_delta_sign_thresholds DEFAULT_CONFIG
    { prompt_cost_per_1k := 3/100, completion_cost_per_1k := 6/100,
      features := [("chat", ⟨2⟩), ("summarize", ⟨9/5⟩),
                   ("generate_code", ⟨11/5⟩), ("translate", ⟨8/5⟩)] }
    "openai:gpt-4" "chat" 100 200 120 250
    (by simp [DEFAULT_CONFIG, lookup])).2.1
    (by norm_num [rawCredits, dollarCost, getMarginForFeature, lookup, DEFAULT_CONFIG])

theorem readConfig_eq_of (h1 h2 : Heap) (r1 r2 : Nat)
    (ho : lookup h1.objs r1 = lookup h2.objs r2)
    (hm : h1.modelMaps = h2.modelMaps) :
    readConfig h1 r1 = readConfig h2 r2 := by
  unfold readConfig
  rw [ho, hm]

/-- C9 (amended): `getConfig` returns a SHALLOW copy, not a deep one. The
returned reference is a fresh top-level object distinct from the live one, so
reassigning the returned object's own scalar fields leaves the live
configuration unchanged — but the copy carries the very same `models`
reference as the live object, so nested model/feature entries are shared
(mutating them through the copy does change the live configuration, as the
counterexample shows). -/
theorem C9_shallow_copy (h : Heap) (liveRef : Nat) (obj : ConfigObj) (v : ℚ)
    (hwf : ∀ q ∈ h.objs, q.1 < h.nextRef)
    (hlive : lookup h.objs liveRef = some obj) :
    (getConfig h liveRef).2 ≠ liveRef ∧
    lookup (getConfig h liveRef).1.objs (getConfig h liveRef).2 = some obj ∧
    readConfig (getConfig h liveRef).1 liveRef = readConfig h liveRef ∧
    readConfig (writeDefaultMargin (getConfig h liveRef).1 (getConfig h liveRef).2 v)
      liveRef = readConfig h liveRef := by
  have hlt : liveRef < h.nextRef := hwf _ (lookup_mem hlive)
  have hne : h.nextRef ≠ liveRef := by omega
  have hg : getConfig h liveRef =
      ({ h with objs := (h.nextRef, obj) :: h.objs, nextRef := h.nextRef + 1 },
        h.nextRef) := by
    unfold getConfig
    rw [hlive]
  rw [hg]
  refine ⟨hne, by simp [lookup], ?_, ?_⟩
  · refine readConfig_eq_of _ _ _ _ ?_ rfl
    simp [lookup, hne]
  · refine readConfig_eq_of _ _ _ _ ?_ rfl
    have hu := lookup_updateKey_ne ((h.nextRef, obj) :: h.objs) h.nextRef
      (fun o => { o with default_margin := v }) (Ne.symm hne)
    rw [show (writeDefaultMargin
        { h with objs := (h.nextRef, obj) :: h.objs, nextRef := h.nextRef + 1 }
        h.nextRef v).objs =
      updateKey ((h.nextRef, obj) :: h.objs) h.nextRef
        (fun o => { o with default_margin := v }) from rfl]
    rw [hu]
    simp [lookup, hne]

/-- C9 counterexample: the copy returned by `getConfig` shares the `models`
object with the live configuration: writing a model's prompt cost through the
copy's `models` reference (which equals the live one) changes what the live
configuration reads back, contradicting the claimed deep/defensive copy. -/
theorem C9_deep_copy_counterexample :
    (∃ cobj, lookup
        (getConfig
          { objs := [(0, { default_margin := 3/2, credit_per_dollar := 1000,
                           modelsRef := 0 })],
            modelMaps := [(0, [("m", { prompt_cost_per_1k := 1, completion_cost_per_1k := 2,
                                       features := [] })])],
            nextRef := 1 } 0).1.objs
        (getConfig
          { objs := [(0, { default_margin := 3/2, credit_per_dollar := 1000,
                           modelsRef := 0 })],
            modelMaps := [(0, [("m", { prompt_cost_per_1k := 1, completion_cost_per_1k := 2,
                                       features := [] })])],
            nextRef := 1 } 0).2 = some cobj ∧ cobj.modelsRef = 0) ∧
    readConfig
        (writeModelPromptCost
          (getConfig
            { objs := [(0, { default_margin := 3/2, credit_per_dollar := 1000,
                             modelsRef := 0 })],
              modelMaps := [(0, [("m", { prompt_cost_per_1k := 1, completion_cost_per_1k := 2,
                                         features := [] })])],
              nextRef := 1 } 0).1
          0 "m" 999) 0 ≠
      readConfig
        { objs := [(0, { default_margin := 3/2, credit_per_dollar := 1000,
                         modelsRef := 0 })],
          modelMaps := [(0, [("m", { prompt_cost_per_1k := 1, completion_cost_per_1k := 2,
                                     features := [] })])],
          nextRef := 1 } 0 := by
  constructor
  · refine ⟨{ default_margin := 3/2, credit_per_dollar := 1000, modelsRef := 0 }, ?_, rfl⟩
    simp [getConfig, lookup]
  · have h1 : readConfig
        (writeModelPromptCost
          (getConfig
            { objs := [(0, { default_margin := 3/2, credit_per_dollar := 1000,
                             modelsRef := 0 })],
              modelMaps := [(0, [("m", { prompt_cost_per_1k := 1, completion_cost_per_1k := 2,
                                         features := [] })])],
              nextRef := 1 } 0).1
          0 "m" 999) 0 =
        some { default_margin := 3/2, credit_per_dollar := 1000,
               models := [("m", { prompt_cost_per_1k := 999, completion_cost_per_1k := 2,
                                  features := [] })] } := by
      simp [readConfig, getConfig, writeModelPromptCost, updateKey, lookup]
    have h2 : readConfig
        { objs := [(0, { default_margin := 3/2, credit_per_dollar := 1000,
                         modelsRef := 0 })],
          modelMaps := [(0, [("m", { prompt_cost_per_1k := 1, completion_cost_per_1k := 2,
                                     features := [] })])],
          nextRef := 1 } 0 =
        some { default_margin := 3/2, credit_per_dollar := 1000,
               models := [("m", { prompt_cost_per_1k := 1, completion_cost_per_1k := 2,
                                  features := [] })] } := by
      simp [readConfig, lookup]
    rw [h1, h2]
    intro hc
    simp only [Option.some.injEq, SDKConfig.mk.injEq, List.cons.injEq, Prod.mk.injEq,
      ModelConfig.mk.injEq] at hc
    norm_num at hc

/-- C9 witness: on a one-object heap the shallow-copy theorem yields a fresh
reference and shows that reassigning the copy's `default_margin` leaves the
live configuration unchanged. -/
theorem C9_shallow_copy_witness :
    (getConfig
        { objs := [(0, { default_margin := 3/2, credit_per_dollar := 1000,
                         modelsRef := 0 })],
          modelMaps := [(0, [("m", { prompt_cost_per_1k := 1, completion_cost_per_1k := 2,
                                     features := [] })])],
          nextRef := 1 } 0).2 ≠ 0 ∧
    readConfig
        (writeDefaultMargin
          (getConfig
            { objs := [(0, { default_margin := 3/2, credit_per_dollar := 1000,
                             modelsRef := 0 })],
              modelMaps := [(0, [("m", { prompt_cost_per_1k := 1, completion_cost_per_1k := 2,
                                         features := [] })])],
              nextRef := 1 } 0).1
          (getConfig
            { objs := [(0, { default_margin := 3/2, credit_per_dollar := 1000,
                             modelsRef := 0 })],
              modelMaps := [(0, [("m", { prompt_cost_per_1k := 1, completion_cost_per_1k := 2,
                                         features := [] })])],
              nextRef := 1 } 0).2 7) 0 =
      readConfig
        { objs := [(0, { default_margin := 3/2, credit_per_dollar := 1000,
                         modelsRef := 0 })],
          modelMaps := [(0, [("m", { prompt_cost_per_1k := 1, completion_cost_per_1k := 2,
                                     features := [] })])],
          nextRef := 1 } 0 := by
  have hc := C9_shallow_copy
    { objs := [(0, { default_margin := 3/2, credit_per_dollar := 1000, modelsRef := 0 })],
      modelMaps := [(0, [("m", { prompt_cost_per_1k := 1, completion_cost_per_1k := 2,
                                 features := [] })])],
      nextRef := 1 } 0
    { default_margin := 3/2, credit_per_dollar := 1000, modelsRef := 0 } 7
    (by
      intro q hq
      rw [List.mem_singleton] at hq
      subst hq
      norm_num)
    (by simp [lookup])
  exact ⟨hc.1, hc.2.2.2⟩

/-- C10: a freshly constructed engine has dashboard sync disabled —
`isDashboardSyncEnabled` is `false` right after the constructor (for any custom
configuration) and again after any `disableDashboardSync` — and in both states
every `wrapCall` completes without attempting a dashboard post. -/
theorem C10_sync_disabled_fresh_and_after_disable (custom : Option PartialSDKConfig)
    (st : SDKState) (model feature : String) (p c : ℚ) (α : Type) (response : α)
    (extractor : Option (α → TokenUsage)) (outcomes : Nat → FetchOutcome Unit) :
    isDashboardSyncEnabled (LLMCreditSDK.init custom) = false ∧
    (wrapCall (LLMCreditSDK.init custom) model feature p c response extractor
        outcomes).postedToDashboard = false ∧
    isDashboardSyncEnabled (disableDashboardSync st) = false ∧
    (wrapCall (disableDashboardSync st) model feature p c response extractor
        outcomes).postedToDashboard = false := by
  have hw : ∀ s : SDKState, s.dashboardSyncEnabled = false →
      (wrapCall s model feature p c response extractor outcomes).postedToDashboard =
        false := by
    intro s hs
    cases extractor with
    | none =>
      unfold wrapCall
      cases hest : estimateCredits s.config
          { model := model, feature := feature, promptTokens := p,
            completionTokens := c } with
      | error e => simp only [hest]
      | ok v =>
        cases hrec : reconcile s.config
            { model := model, feature := feature, promptTokens := p, completionTokens := c,
              actualPromptTokens := p, actualCompletionTokens := c } with
        | error e2 => simp only [hest, hrec]
        | ok r => simp [hest, hrec, hs]
    | some extract =>
      unfold wrapCall
      cases hest : estimateCredits s.config
          { model := model, feature := feature, promptTokens := p,
            completionTokens := c } with
      | error e => simp only [hest]
      | ok v =>
        cases hrec : reconcile s.config
            { model := model, feature := feature, promptTokens := p, completionTokens := c,
              actualPromptTokens := (extract response).promptTokens,
              actualCompletionTokens := (extract response).completionTokens } with
        | error e2 => simp only [hest, hrec]
        | ok r => simp [hest, hrec, hs]
  exact ⟨rfl, hw _ rfl, rfl, hw _ rfl⟩
